import Mathlib

/-!
Verification of the pdf2video client-side video compositor
(`src/services/videoService.ts`) and the PCM→WAV converter
(`src/unnamed/part_001`), as a shallow embedding in Lean 4.

The compositor `generateVideo` is an async browser function.  We embed it
as a pure function from an environment (the browser capabilities and the
image-load / audio-decode oracles) and a slide list to a run output: the
ordered trace of observable events, the settled result of the returned
promise (resolved blob or rejection), and the final reading of the audio
clock (which starts at 0 and advances exactly by each played buffer's
duration, since the per-slide draw loop holds until the audio clock
reaches `start + duration`).
-/

namespace Pdf2Video

/-- A Web-Audio `AudioBuffer`: a fixed number of sample frames at a
positive sample rate.  `duration = length / sampleRate` (always ≥ 0). -/
structure AudioBuffer where
  length : Nat
  sampleRate : ℚ
  sampleRate_pos : 0 < sampleRate

/-- `AudioBuffer.duration`, as the Web Audio API defines it. -/
def AudioBuffer.duration (b : AudioBuffer) : ℚ :=
  (b.length : ℚ) / b.sampleRate

/-- A decoded `HTMLImageElement`: its natural width and height. -/
structure ImageData where
  width : ℚ
  height : ℚ
  deriving DecidableEq

/-- An opaque binary blob (`Blob`), identified by its bytes. -/
structure MediaBlob where
  data : List Nat
  deriving DecidableEq

/-- `Slide.status` from `src/types.ts`. -/
inductive SlideStatus where
  | pending
  | ready
  | error
  deriving DecidableEq

/-- The `Slide` interface from `src/types.ts`.  `audioBlob` is
`Blob | null` in the source, hence an `Option` here. -/
structure Slide where
  id : String
  pageIndex : Nat
  imageBlob : MediaBlob
  imageUrl : String
  script : String
  audioBlob : Option MediaBlob
  audioUrl : Option String
  duration : ℚ
  isProcessing : Bool
  status : SlideStatus
  deriving DecidableEq

/-- The browser environment `generateVideo` runs in: which primitives
exist, what the MIME capability probes report, and what image loads and
audio decodes produce (`none` models an `onerror` / decode rejection). -/
structure Env where
  canvasCtxAvailable : Bool
  audioContextAvailable : Bool
  captureStreamAvailable : Bool
  mediaRecorderAvailable : Bool
  isTypeSupportedMp4 : Bool
  isTypeSupportedH264 : Bool
  loadImage : String → Option ImageData
  decodeAudio : MediaBlob → Option AudioBuffer

/-- The letterbox/pillarbox placement computed inside the draw loop of
`generateVideo` (src/services/videoService.ts lines 111–120). -/
structure Placement where
  x : ℚ
  y : ℚ
  drawW : ℚ
  drawH : ℚ
  deriving DecidableEq

/-- `scale = Math.min(WIDTH / img.width, HEIGHT / img.height)`;
`drawW = img.width * scale`; `drawH = img.height * scale`;
`x = (WIDTH - drawW) / 2`; `y = (HEIGHT - drawH) / 2`
with `WIDTH = 1920`, `HEIGHT = 1080`. -/
def computePlacement (img : ImageData) : Placement :=
  let scale := min (1920 / img.width) (1080 / img.height)
  let drawW := img.width * scale
  let drawH := img.height * scale
  { x := (1920 - drawW) / 2
    y := (1080 - drawH) / 2
    drawW := drawW
    drawH := drawH }

/-- Observable events of one `generateVideo` run, in program order. -/
inductive Event where
  /-- `new MediaRecorder(combinedStream, { mimeType, videoBitsPerSecond })`. -/
  | createRecorder (mimeType : String) (videoBitsPerSecond : Nat)
  /-- `recorder.start()`. -/
  | startRecording
  /-- the initial black frame painted right after `recorder.start()`. -/
  | drawBlackFrame
  /-- one `onProgress(msg)` callback invocation. -/
  | progress (msg : String)
  /-- `loadImage(slide.imageUrl)` succeeded for this URL. -/
  | loadImage (url : String)
  /-- `source.start(audioCtx.currentTime)` on a buffer of this duration. -/
  | playAudio (startTime : ℚ) (duration : ℚ)
  /-- the draw loop held this placement on screen (black-cleared frame,
  image drawn at the placement) until the audio clock reached the end. -/
  | drawSlide (p : Placement)
  /-- `await new Promise(r => setTimeout(r, ms))`. -/
  | wait (ms : Nat)
  /-- `recorder.stop()`. -/
  | stopRecorder
  /-- `new Blob(chunks, { type: mimeType })` inside `onstop`. -/
  | finalizeBlob (mimeType : String)
  /-- `audioCtx.close()`. -/
  | closeAudioContext
  /-- `combinedStream.getTracks()` / `canvasStream.getTracks()` all stopped. -/
  | stopTracks
  deriving DecidableEq

/-- The blob the promise resolves with (content bytes are not modelled;
its declared MIME type is). -/
structure OutBlob where
  type : String
  deriving DecidableEq

/-- How the promise returned by `generateVideo` settles. -/
inductive RunResult where
  | resolved (blob : OutBlob)
  | rejected (err : String)
  deriving DecidableEq

/-- Output of one run: the event trace, the settled promise, and the
audio clock reading after the last slide's draw loop (clock starts at 0). -/
structure RunOutput where
  trace : List Event
  result : RunResult
  finalClock : ℚ
  deriving DecidableEq

/-- The progress message `` `動画生成中... ${i + 1}/${slides.length}` ``,
for 1-based index `n` out of `total`. -/
def progressMsg (n total : Nat) : String :=
  "動画生成中... " ++ toString n ++ "/" ++ toString total

/-- The MIME negotiation at the top of `generateVideo`: start from
`video/webm; codecs=vp9`, upgrade to `video/mp4` if
`MediaRecorder?.isTypeSupported?.('video/mp4')`, else to
`video/webm; codecs=h264` if that probe reports support.  When
`MediaRecorder` is absent the optional chain yields `undefined` (falsy),
so the vp9 default stands. -/
def mimeDetect (env : Env) : String :=
  if env.mediaRecorderAvailable && env.isTypeSupportedMp4 then
    "video/mp4"
  else if env.mediaRecorderAvailable && env.isTypeSupportedH264 then
    "video/webm; codecs=h264"
  else
    "video/webm; codecs=vp9"

/-- The per-slide loop of `generateVideo` (lines 82–128): for slide `i`
(0-based) of `total`, emit the progress message, `continue` if
`slide.audioBlob` is null, otherwise await the image load (rejection
aborts the run), await the audio decode (likewise), start the audio at
the current audio-clock time and hold the placed image on screen until
the clock reaches `start + duration`.  Returns the events, the first
error if any (the rejection reason), and the final clock. -/
def processSlides (env : Env) (total : Nat) :
    Nat → ℚ → List Slide → List Event × Option String × ℚ
  | _, clock, [] => ([], none, clock)
  | i, clock, slide :: rest =>
    let ev := Event.progress (progressMsg (i + 1) total)
    match slide.audioBlob with
    | none =>
      let r := processSlides env total (i + 1) clock rest
      (ev :: r.1, r.2.1, r.2.2)
    | some blob =>
      match env.loadImage slide.imageUrl with
      | none => ([ev], some "image load failed", clock)
      | some img =>
        match env.decodeAudio blob with
        | none => ([ev, Event.loadImage slide.imageUrl], some "audio decode failed", clock)
        | some buf =>
          let d := buf.duration
          let evs := [ev, Event.loadImage slide.imageUrl, Event.playAudio clock d]
            ++ (if 0 < d then [Event.drawSlide (computePlacement img)] else [])
          let r := processSlides env total (i + 1) (clock + d) rest
          (evs ++ r.1, r.2.1, r.2.2)

/-- `generateVideo(slides, onProgress)` from `src/services/videoService.ts`.
Failure order follows the source: missing 2d context throws first; then
the constructor of the (absent) `AudioContext`, the missing
`canvas.captureStream`, and the missing `MediaRecorder` constructor each
throw before `recorder.start()`.  On the success path the trace ends with
the 500 ms trailing wait, `recorder.stop()`, and the `onstop` handler
(blob finalization, `audioCtx.close()`, stopping every track) before the
promise resolves with the blob typed by the negotiated MIME string.
A mid-run slide failure rejects the promise right there: none of the
`onstop` cleanup runs on that path, exactly as in the source. -/
def generateVideo (env : Env) (slides : List Slide) : RunOutput :=
  if env.canvasCtxAvailable = false then
    { trace := [], result := .rejected "No canvas context", finalClock := 0 }
  else if env.audioContextAvailable = false then
    { trace := [], result := .rejected "AudioContextClass is not a constructor", finalClock := 0 }
  else if env.captureStreamAvailable = false then
    { trace := [], result := .rejected "canvas.captureStream is not a function", finalClock := 0 }
  else if env.mediaRecorderAvailable = false then
    { trace := [], result := .rejected "MediaRecorder is not a constructor", finalClock := 0 }
  else
    let mimeType := mimeDetect env
    let pre := [Event.createRecorder mimeType 8000000, Event.startRecording,
      Event.drawBlackFrame]
    let r := processSlides env slides.length 0 0 slides
    match r.2.1 with
    | some e => { trace := pre ++ r.1, result := .rejected e, finalClock := r.2.2 }
    | none =>
      { trace := pre ++ r.1 ++
          [Event.wait 500, Event.stopRecorder, Event.finalizeBlob mimeType,
           Event.closeAudioContext, Event.stopTracks]
        result := .resolved { type := mimeType }
        finalClock := r.2.2 }

/-- The sequence of `onProgress` messages of a trace, in order. -/
def progressMessages (t : List Event) : List String :=
  t.filterMap fun e =>
    match e with
    | .progress m => some m
    | _ => none

/-- The durations of the audio sources started during a trace, in order. -/
def playDurations (t : List Event) : List ℚ :=
  t.filterMap fun e =>
    match e with
    | .playAudio _ d => some d
    | _ => none

/-- Reference expression for the claims: the decoded durations of exactly
the slides carrying a non-null audio blob, in input order. -/
def audioDurations (env : Env) (slides : List Slide) : List ℚ :=
  slides.filterMap fun s =>
    s.audioBlob.bind fun b => (env.decodeAudio b).map AudioBuffer.duration

/-!
## PCM → WAV conversion (`src/unnamed/part_001`)

`pcmToWav` decodes a base64 string with `atob`, prepends a 44-byte WAV
header built by `createWavHeader` through `DataView` writes, and wraps
the result in a `Blob` of type `audio/wav`.  Bytes are modelled as `Nat`
values below 256 in a `List Nat`; `DataView.setUintN` little-endian
writes become per-byte `List.set` operations.
-/

/-- Value of one character of the standard base64 alphabet. -/
def b64CharVal (c : Char) : Option Nat :=
  if 'A' ≤ c ∧ c ≤ 'Z' then some (c.toNat - 65)
  else if 'a' ≤ c ∧ c ≤ 'z' then some (c.toNat - 97 + 26)
  else if '0' ≤ c ∧ c ≤ '9' then some (c.toNat - 48 + 52)
  else if c = '+' then some 62
  else if c = '/' then some 63
  else none

/-- Decode base64 characters four at a time into byte triples, honouring
`=` padding in the final quartet. -/
def b64DecodeGroups : List Char → Option (List Nat)
  | [] => some []
  | c1 :: c2 :: c3 :: c4 :: rest => do
    let v1 ← b64CharVal c1
    let v2 ← b64CharVal c2
    if c3 = '=' ∧ c4 = '=' ∧ rest = [] then
      some [v1 * 4 + v2 / 16]
    else
      let v3 ← b64CharVal c3
      if c4 = '=' ∧ rest = [] then
        some [v1 * 4 + v2 / 16, v2 % 16 * 16 + v3 / 4]
      else do
        let v4 ← b64CharVal c4
        let tail ← b64DecodeGroups rest
        some ([v1 * 4 + v2 / 16, v2 % 16 * 16 + v3 / 4, v3 % 4 * 64 + v4] ++ tail)
  | _ => none

/-- `window.atob`: decode a base64 string to its byte sequence, or fail
(the browser throws `InvalidCharacterError`) on malformed input. -/
def atob (s : String) : Option (List Nat) :=
  b64DecodeGroups s.toList

/-- `DataView.setUint8` on a byte list (the stored value is taken mod 256). -/
def setUint8 (buf : List Nat) (off v : Nat) : List Nat :=
  buf.set off (v % 256)

/-- `DataView.setUint16(off, v, true)`: two little-endian byte writes. -/
def setUint16LE (buf : List Nat) (off v : Nat) : List Nat :=
  setUint8 (setUint8 buf off v) (off + 1) (v / 256)

/-- `DataView.setUint32(off, v, true)`: four little-endian byte writes. -/
def setUint32LE (buf : List Nat) (off v : Nat) : List Nat :=
  setUint8 (setUint8 (setUint8 (setUint8 buf off v) (off + 1) (v / 256))
    (off + 2) (v / 65536)) (off + 3) (v / 16777216)

/-- Helper for `writeString`: write the char codes one byte at a time. -/
def writeChars (buf : List Nat) (off : Nat) : List Char → List Nat
  | [] => buf
  | c :: cs => writeChars (setUint8 buf off c.toNat) (off + 1) cs

/-- `writeString(view, offset, string)` from the source: `setUint8` of
`string.charCodeAt(i)` at `offset + i` for each index. -/
def writeString (buf : List Nat) (off : Nat) (s : String) : List Nat :=
  writeChars buf off s.toList

/-- `createWavHeader(dataLength, sampleRate)`: the 44-byte RIFF/WAVE
header, written field by field exactly as in the source. -/
def createWavHeader (dataLength sampleRate : Nat) : List Nat :=
  let numChannels := 1
  let bitsPerSample := 16
  let byteRate := sampleRate * numChannels * bitsPerSample / 8
  let blockAlign := numChannels * bitsPerSample / 8
  let buf := List.replicate 44 0
  let buf := writeString buf 0 "RIFF"
  let buf := setUint32LE buf 4 (36 + dataLength)
  let buf := writeString buf 8 "WAVE"
  let buf := writeString buf 12 "fmt "
  let buf := setUint32LE buf 16 16
  let buf := setUint16LE buf 20 1
  let buf := setUint16LE buf 22 numChannels
  let buf := setUint32LE buf 24 sampleRate
  let buf := setUint32LE buf 28 byteRate
  let buf := setUint16LE buf 32 blockAlign
  let buf := setUint16LE buf 34 bitsPerSample
  let buf := writeString buf 36 "data"
  let buf := setUint32LE buf 40 dataLength
  buf

/-- The WAV blob `pcmToWav` returns: its bytes and its declared type. -/
structure WavBlob where
  data : List Nat
  type : String
  deriving DecidableEq

/-- `pcmToWav(base64Pcm, sampleRate)`: decode the base64 PCM, prepend the
WAV header, return a blob of type `audio/wav`.  `none` models the
exception `atob` throws on malformed input. -/
def pcmToWav (base64Pcm : String) (sampleRate : Nat) : Option WavBlob :=
  match atob base64Pcm with
  | none => none
  | some bytes =>
    some { data := createWavHeader bytes.length sampleRate ++ bytes
           type := "audio/wav" }

/-- Read an unsigned 16-bit little-endian field of a byte list. -/
def readUint16LE (l : List Nat) (off : Nat) : Nat :=
  l.getD off 0 + 256 * l.getD (off + 1) 0

/-- Read an unsigned 32-bit little-endian field of a byte list. -/
def readUint32LE (l : List Nat) (off : Nat) : Nat :=
  l.getD off 0 + 256 * l.getD (off + 1) 0 + 65536 * l.getD (off + 2) 0 +
    16777216 * l.getD (off + 3) 0

/-- Two slides agreeing on every field except possibly `duration`. -/
def sameExceptDuration (a b : Slide) : Prop :=
  a.id = b.id ∧ a.pageIndex = b.pageIndex ∧ a.imageBlob = b.imageBlob ∧
  a.imageUrl = b.imageUrl ∧ a.script = b.script ∧ a.audioBlob = b.audioBlob ∧
  a.audioUrl = b.audioUrl ∧ a.isProcessing = b.isProcessing ∧ a.status = b.status

instance (a b : Slide) : Decidable (sameExceptDuration a b) := by
  unfold sameExceptDuration
  infer_instance

/-!
## Concrete fixtures (for witnesses and counterexample runs)
-/

/-- A fully capable runtime: MP4 is reported supported, every image URL
loads as a 1600×900 image, every blob decodes to 2 s of audio
(48000 frames at 24000 Hz). -/
def envOk : Env :=
  { canvasCtxAvailable := true
    audioContextAvailable := true
    captureStreamAvailable := true
    mediaRecorderAvailable := true
    isTypeSupportedMp4 := true
    isTypeSupportedH264 := false
    loadImage := fun _ => some ⟨1600, 900⟩
    decodeAudio := fun _ => some ⟨48000, 24000, by norm_num⟩ }

/-- `envOk`, except the 2d canvas context cannot be acquired. -/
def envNoCtx : Env :=
  { envOk with canvasCtxAvailable := false }

/-- `envOk`, except every image load fails (`img.onerror`). -/
def envImgFail : Env :=
  { envOk with loadImage := fun _ => none }

/-- A ready slide carrying an audio blob. -/
def slideA : Slide :=
  { id := "a"
    pageIndex := 0
    imageBlob := ⟨[1]⟩
    imageUrl := "blob:img-a"
    script := "hello"
    audioBlob := some ⟨[7]⟩
    audioUrl := some "blob:aud-a"
    duration := 2
    isProcessing := false
    status := .ready }

/-- A slide still lacking audio (`audioBlob` null). -/
def slideNoAudio : Slide :=
  { id := "b"
    pageIndex := 1
    imageBlob := ⟨[2]⟩
    imageUrl := "blob:img-b"
    script := "world"
    audioBlob := none
    audioUrl := none
    duration := 0
    isProcessing := true
    status := .pending }

/-!
## Theorems
-/

/-- A run whose promise resolves went down the full success path: every
capability was present, no slide failed, the blob is typed by the
negotiated MIME string, and the trace is the recorder setup, the slide
events, then the trailing wait / stop / finalize / cleanup tail. -/
lemma generateVideo_resolved_shape (env : Env) (slides : List Slide) (blob : OutBlob)
    (h : (generateVideo env slides).result = .resolved blob) :
    env.canvasCtxAvailable = true ∧ env.audioContextAvailable = true ∧
    env.captureStreamAvailable = true ∧ env.mediaRecorderAvailable = true ∧
    (processSlides env slides.length 0 0 slides).2.1 = none ∧
    blob = { type := mimeDetect env } ∧
    (generateVideo env slides).trace =
      [Event.createRecorder (mimeDetect env) 8000000, Event.startRecording,
       Event.drawBlackFrame] ++ (processSlides env slides.length 0 0 slides).1 ++
      [Event.wait 500, Event.stopRecorder, Event.finalizeBlob (mimeDetect env),
       Event.closeAudioContext, Event.stopTracks] ∧
    (generateVideo env slides).finalClock =
      (processSlides env slides.length 0 0 slides).2.2 := by
  cases hc : env.canvasCtxAvailable with
  | false => simp [generateVideo, hc] at h
  | true =>
    cases ha : env.audioContextAvailable with
    | false => simp [generateVideo, hc, ha] at h
    | true =>
      cases hcs : env.captureStreamAvailable with
      | false => simp [generateVideo, hc, ha, hcs] at h
      | true =>
        cases hm : env.mediaRecorderAvailable with
        | false => simp [generateVideo, hc, ha, hcs, hm] at h
        | true =>
          cases herr : (processSlides env slides.length 0 0 slides).2.1 with
          | some e => simp [generateVideo, hc, ha, hcs, hm, herr] at h
          | none =>
            simp only [generateVideo, hc, ha, hcs, hm, herr] at h ⊢
            simp only [Bool.true_eq_false, if_false, RunResult.resolved.injEq] at h
            simp [← h]

/-- C6: when the 2d context, the `AudioContext` constructor,
`canvas.captureStream` or the `MediaRecorder` constructor is missing,
the promise rejects with an empty trace: `recorder.start()` never ran
and nothing was recorded. -/
theorem capability_failure_rejects (env : Env) (slides : List Slide)
    (h : env.canvasCtxAvailable = false ∨ env.audioContextAvailable = false ∨
      env.captureStreamAvailable = false ∨ env.mediaRecorderAvailable = false) :
    (∃ e, (generateVideo env slides).result = .rejected e) ∧
    (generateVideo env slides).trace = [] ∧
    Event.startRecording ∉ (generateVideo env slides).trace := by
  cases hc : env.canvasCtxAvailable <;>
    cases ha : env.audioContextAvailable <;>
      cases hcs : env.captureStreamAvailable <;>
        cases hm : env.mediaRecorderAvailable <;>
          simp_all [generateVideo]

/-- Witness for C6: a runtime with no 2d canvas context. -/
theorem capability_failure_rejects_witness :
    envNoCtx.canvasCtxAvailable = false ∧
    (∃ e, (generateVideo envNoCtx [slideA]).result = .rejected e) ∧
    (generateVideo envNoCtx [slideA]).trace = [] ∧
    Event.startRecording ∉ (generateVideo envNoCtx [slideA]).trace :=
  ⟨rfl, capability_failure_rejects envNoCtx [slideA] (Or.inl rfl)⟩

/-- C3: with a `MediaRecorder` present, the negotiated MIME type follows
the priority order MP4, then H.264-in-WebM, then VP9-in-WebM, and on any
resolved run the selected string is both the recorder's configured
`mimeType` and the type of the resolved blob. -/
theorem mime_negotiation (env : Env) (hm : env.mediaRecorderAvailable = true) :
    mimeDetect env =
      (if env.isTypeSupportedMp4 = true then "video/mp4"
       else if env.isTypeSupportedH264 = true then "video/webm; codecs=h264"
       else "video/webm; codecs=vp9") ∧
    ∀ slides blob, (generateVideo env slides).result = .resolved blob →
      blob.type = mimeDetect env ∧
      Event.createRecorder (mimeDetect env) 8000000 ∈ (generateVideo env slides).trace := by
  constructor
  · cases h4 : env.isTypeSupportedMp4 <;> cases h64 : env.isTypeSupportedH264 <;>
      simp [mimeDetect, hm, h4, h64]
  · intro slides blob h
    obtain ⟨_, _, _, _, _, hblob, htrace, _⟩ := generateVideo_resolved_shape env slides blob h
    subst hblob
    refine ⟨rfl, ?_⟩
    rw [htrace]
    simp

/-- Witness for C3: `envOk` reports MP4 support, and the empty-deck run
resolves with an MP4-typed blob recorded under that MIME type. -/
theorem mime_negotiation_witness :
    envOk.mediaRecorderAvailable = true ∧
    (generateVideo envOk []).result = .resolved { type := "video/mp4" } ∧
    OutBlob.type { type := "video/mp4" } = mimeDetect envOk ∧
    Event.createRecorder (mimeDetect envOk) 8000000 ∈ (generateVideo envOk []).trace :=
  ⟨rfl, rfl,
    ((mime_negotiation envOk rfl).2 [] { type := "video/mp4" } rfl).1,
    ((mime_negotiation envOk rfl).2 [] { type := "video/mp4" } rfl).2⟩

/-- C4: for every image of positive width and height, the placement uses
`scale = min(1920/w, 1080/h)`, drawn size `(w·scale, h·scale)`, offsets
`((1920−drawW)/2, (1080−drawH)/2)`; the drawn region fits in the
1920×1080 frame, preserves the aspect ratio, and is centered (equal
margins on both sides of each axis). -/
theorem placement_letterbox (w h : ℚ) (hw : 0 < w) (hh : 0 < h) :
    (computePlacement ⟨w, h⟩).drawW = w * min (1920 / w) (1080 / h) ∧
    (computePlacement ⟨w, h⟩).drawH = h * min (1920 / w) (1080 / h) ∧
    (computePlacement ⟨w, h⟩).x = (1920 - (computePlacement ⟨w, h⟩).drawW) / 2 ∧
    (computePlacement ⟨w, h⟩).y = (1080 - (computePlacement ⟨w, h⟩).drawH) / 2 ∧
    (computePlacement ⟨w, h⟩).drawW ≤ 1920 ∧
    (computePlacement ⟨w, h⟩).drawH ≤ 1080 ∧
    0 ≤ (computePlacement ⟨w, h⟩).x ∧
    0 ≤ (computePlacement ⟨w, h⟩).y ∧
    (computePlacement ⟨w, h⟩).drawW * h = (computePlacement ⟨w, h⟩).drawH * w ∧
    (computePlacement ⟨w, h⟩).x + (computePlacement ⟨w, h⟩).drawW +
      (computePlacement ⟨w, h⟩).x = 1920 ∧
    (computePlacement ⟨w, h⟩).y + (computePlacement ⟨w, h⟩).drawH +
      (computePlacement ⟨w, h⟩).y = 1080 := by
  have h1920 : w * (1920 / w) = 1920 := by field_simp
  have h1080 : h * (1080 / h) = 1080 := by field_simp
  have hW : w * min (1920 / w) (1080 / h) ≤ 1920 := by
    calc w * min (1920 / w) (1080 / h) ≤ w * (1920 / w) :=
          mul_le_mul_of_nonneg_left (min_le_left _ _) hw.le
      _ = 1920 := h1920
  have hH : h * min (1920 / w) (1080 / h) ≤ 1080 := by
    calc h * min (1920 / w) (1080 / h) ≤ h * (1080 / h) :=
          mul_le_mul_of_nonneg_left (min_le_right _ _) hh.le
      _ = 1080 := h1080
  refine ⟨?_, ?_, ?_, ?_, ?_, ?_, ?_, ?_, ?_, ?_, ?_⟩ <;> simp only [computePlacement]
  · exact hW
  · exact hH
  · linarith
  · linarith
  · ring
  · ring
  · ring

/-- Witness for C4 at a concrete 4:3 image (w = 1600, h = 900 would be
16:9; use 800×600). -/
theorem placement_letterbox_witness :
    0 < (800 : ℚ) ∧ 0 < (600 : ℚ) ∧
    ((computePlacement ⟨800, 600⟩).drawW = 800 * min (1920 / 800) (1080 / 600) ∧
     (computePlacement ⟨800, 600⟩).drawH = 600 * min (1920 / 800) (1080 / 600) ∧
     (computePlacement ⟨800, 600⟩).x = (1920 - (computePlacement ⟨800, 600⟩).drawW) / 2 ∧
     (computePlacement ⟨800, 600⟩).y = (1080 - (computePlacement ⟨800, 600⟩).drawH) / 2 ∧
     (computePlacement ⟨800, 600⟩).drawW ≤ 1920 ∧
     (computePlacement ⟨800, 600⟩).drawH ≤ 1080 ∧
     0 ≤ (computePlacement ⟨800, 600⟩).x ∧
     0 ≤ (computePlacement ⟨800, 600⟩).y ∧
     (computePlacement ⟨800, 600⟩).drawW * 600 = (computePlacement ⟨800, 600⟩).drawH * 800 ∧
     (computePlacement ⟨800, 600⟩).x + (computePlacement ⟨800, 600⟩).drawW +
       (computePlacement ⟨800, 600⟩).x = 1920 ∧
     (computePlacement ⟨800, 600⟩).y + (computePlacement ⟨800, 600⟩).drawH +
       (computePlacement ⟨800, 600⟩).y = 1080) :=
  ⟨by norm_num, by norm_num, placement_letterbox 800 600 (by norm_num) (by norm_num)⟩

/-- The slide loop, when it reports no error, leaves the audio clock
advanced by exactly the decoded durations of the audio-carrying slides,
starts one audio source per such slide (in input order, with those same
durations), and emits one progress message per input slide, in order,
numbered `i+1, i+2, …` out of `total`. -/
lemma processSlides_err_none (env : Env) (total : Nat) :
    ∀ (slides : List Slide) (i : Nat) (clock : ℚ),
      (processSlides env total i clock slides).2.1 = none →
      (processSlides env total i clock slides).2.2 =
        clock + (audioDurations env slides).sum ∧
      playDurations (processSlides env total i clock slides).1 =
        audioDurations env slides ∧
      progressMessages (processSlides env total i clock slides).1 =
        (List.range' (i + 1) slides.length).map fun k => progressMsg k total := by
  intro slides
  induction slides with
  | nil =>
    intro i clock _
    simp [processSlides, audioDurations, playDurations, progressMessages]
  | cons s rest ih =>
    intro i clock herr
    cases hs : s.audioBlob with
    | none =>
      simp only [processSlides, hs] at herr ⊢
      obtain ⟨h1, h2, h3⟩ := ih (i + 1) clock herr
      refine ⟨?_, ?_, ?_⟩
      · simpa [audioDurations, hs] using h1
      · simpa [playDurations, audioDurations, hs] using h2
      · simpa [progressMessages, List.range'_succ] using h3
    | some blob =>
      cases himg : env.loadImage s.imageUrl with
      | none => simp [processSlides, hs, himg] at herr
      | some img =>
        cases hbuf : env.decodeAudio blob with
        | none => simp [processSlides, hs, himg, hbuf] at herr
        | some buf =>
          simp only [processSlides, hs, himg, hbuf] at herr ⊢
          obtain ⟨h1, h2, h3⟩ := ih (i + 1) (clock + buf.duration) herr
          refine ⟨?_, ?_, ?_⟩
          · rw [h1]
            simp [audioDurations, hs, hbuf]
            ring
          · simp only [playDurations, List.filterMap_append] at h2 ⊢
            rw [h2]
            simp [audioDurations, hs, hbuf]
          · simp only [progressMessages, List.filterMap_append] at h3 ⊢
            rw [h3]
            simp [List.range'_succ]

/-- When every audio-carrying slide's image loads and audio decodes, the
slide loop finishes without error — in particular, slides with a null
audio blob never make it fail. -/
lemma processSlides_ok (env : Env) (total : Nat) :
    ∀ (slides : List Slide) (i : Nat) (clock : ℚ),
      (∀ s ∈ slides, ∀ b, s.audioBlob = some b →
        (env.loadImage s.imageUrl).isSome ∧ (env.decodeAudio b).isSome) →
      (processSlides env total i clock slides).2.1 = none := by
  intro slides
  induction slides with
  | nil => intro i clock _; simp [processSlides]
  | cons s rest ih =>
    intro i clock hok
    have hrest : ∀ t ∈ rest, ∀ b, t.audioBlob = some b →
        (env.loadImage t.imageUrl).isSome ∧ (env.decodeAudio b).isSome :=
      fun t ht => hok t (List.mem_cons_of_mem s ht)
    cases hs : s.audioBlob with
    | none => simpa [processSlides, hs] using ih (i + 1) clock hrest
    | some blob =>
      obtain ⟨himg, hbuf⟩ := hok s (List.mem_cons_self s rest) blob hs
      obtain ⟨img, himg⟩ := Option.isSome_iff_exists.mp himg
      obtain ⟨buf, hbuf⟩ := Option.isSome_iff_exists.mp hbuf
      simpa [processSlides, hs, himg, hbuf] using ih (i + 1) (clock + buf.duration) hrest

/-- When every audio-carrying slide's blob decodes, the decoded-duration
list has one entry per audio-carrying slide. -/
lemma audioDurations_length (env : Env) :
    ∀ slides : List Slide,
      (∀ s ∈ slides, ∀ b, s.audioBlob = some b → (env.decodeAudio b).isSome) →
      (audioDurations env slides).length =
        (slides.filter fun s => s.audioBlob.isSome).length := by
  intro slides
  induction slides with
  | nil => intro _; simp [audioDurations]
  | cons s rest ih =>
    intro hok
    have hrest : ∀ t ∈ rest, ∀ b, t.audioBlob = some b → (env.decodeAudio b).isSome :=
      fun t ht => hok t (List.mem_cons_of_mem s ht)
    cases hs : s.audioBlob with
    | none => simpa [audioDurations, List.filter_cons, hs] using ih hrest
    | some blob =>
      obtain ⟨buf, hbuf⟩ :=
        Option.isSome_iff_exists.mp (hok s (List.mem_cons_self s rest) blob hs)
      simpa [audioDurations, List.filter_cons, hs, hbuf] using ih hrest

/-- Every event the slide loop emits is a progress message, an image
load, an audio start, or a slide draw — never a wait, recorder stop,
blob finalization or cleanup event. -/
lemma processSlides_events_shape (env : Env) (total : Nat) :
    ∀ (slides : List Slide) (i : Nat) (clock : ℚ) (e : Event),
      e ∈ (processSlides env total i clock slides).1 →
      (∃ m, e = .progress m) ∨ (∃ u, e = .loadImage u) ∨
      (∃ st d, e = .playAudio st d) ∨ (∃ p, e = .drawSlide p) := by
  intro slides
  induction slides with
  | nil => intro i clock e he; simp [processSlides] at he
  | cons s rest ih =>
    intro i clock e he
    cases hs : s.audioBlob with
    | none =>
      simp only [processSlides, hs, List.mem_cons] at he
      rcases he with he | he
      · exact Or.inl ⟨_, he⟩
      · exact ih (i + 1) clock e he
    | some blob =>
      cases himg : env.loadImage s.imageUrl with
      | none =>
        simp only [processSlides, hs, himg, List.mem_singleton] at he
        exact Or.inl ⟨_, he⟩
      | some img =>
        cases hbuf : env.decodeAudio blob with
        | none =>
          simp [processSlides, hs, himg, hbuf] at he
          rcases he with he | he
          · exact Or.inl ⟨_, he⟩
          · exact Or.inr (Or.inl ⟨_, he⟩)
        | some buf =>
          by_cases hd : 0 < buf.duration
          · simp [processSlides, hs, himg, hbuf, hd] at he
            rcases he with he | he | he | he | he
            · exact Or.inl ⟨_, he⟩
            · exact Or.inr (Or.inl ⟨_, he⟩)
            · exact Or.inr (Or.inr (Or.inl ⟨_, _, he⟩))
            · exact Or.inr (Or.inr (Or.inr ⟨_, he⟩))
            · exact ih _ _ e he
          · simp [processSlides, hs, himg, hbuf, hd] at he
            rcases he with he | he | he | he
            · exact Or.inl ⟨_, he⟩
            · exact Or.inr (Or.inl ⟨_, he⟩)
            · exact Or.inr (Or.inr (Or.inl ⟨_, _, he⟩))
            · exact ih _ _ e he

/-- The slide loop reads only the `imageUrl` and `audioBlob` fields of a
slide: on lists agreeing except possibly in `duration` it is literally
equal. -/
lemma processSlides_congr (env : Env) (total : Nat) :
    ∀ (s1 s2 : List Slide) (i : Nat) (clock : ℚ),
      List.Forall₂ sameExceptDuration s1 s2 →
      processSlides env total i clock s1 = processSlides env total i clock s2 := by
  intro s1
  induction s1 with
  | nil =>
    intro s2 i clock h
    cases h
    rfl
  | cons a rest ih =>
    intro s2 i clock h
    cases h with
    | cons hab hrest =>
      obtain ⟨-, -, -, hurl, -, haud, -, -, -⟩ := hab
      rename_i b t2
      have hrw : ∀ (j : Nat) (c : ℚ),
          processSlides env total j c rest = processSlides env total j c t2 :=
        fun j c => ih t2 j c hrest
      simp only [processSlides, hurl, haud, hrw]

/-- C1: with the capabilities present and every audio-carrying slide
loading and decoding, the run resolves (null-audio slides are skipped
without error), the audio clock advances by exactly the decoded durations
of the audio-carrying slides in input order (one `playAudio` per such
slide, none for the skipped ones), and the decoded-duration list has one
entry per audio-carrying slide. -/
theorem generateVideo_skips_and_total_duration (env : Env) (slides : List Slide)
    (hc1 : env.canvasCtxAvailable = true) (hc2 : env.audioContextAvailable = true)
    (hc3 : env.captureStreamAvailable = true) (hc4 : env.mediaRecorderAvailable = true)
    (hok : ∀ s ∈ slides, ∀ b, s.audioBlob = some b →
      (env.loadImage s.imageUrl).isSome ∧ (env.decodeAudio b).isSome) :
    (generateVideo env slides).result = .resolved { type := mimeDetect env } ∧
    (generateVideo env slides).finalClock = (audioDurations env slides).sum ∧
    playDurations (generateVideo env slides).trace = audioDurations env slides ∧
    (audioDurations env slides).length =
      (slides.filter fun s => s.audioBlob.isSome).length := by
  have herr := processSlides_ok env slides.length slides 0 0 hok
  have hres : (generateVideo env slides).result = .resolved { type := mimeDetect env } := by
    simp [generateVideo, hc1, hc2, hc3, hc4, herr]
  obtain ⟨-, -, -, -, -, -, htrace, hclock⟩ :=
    generateVideo_resolved_shape env slides _ hres
  obtain ⟨h1, h2, -⟩ := processSlides_err_none env slides.length slides 0 0 herr
  refine ⟨hres, ?_, ?_, ?_⟩
  · rw [hclock, h1]
    ring
  · rw [htrace]
    simp only [playDurations, List.filterMap_append, List.filterMap_cons,
      List.filterMap_nil]
    simpa [playDurations] using h2
  · exact audioDurations_length env slides fun s hmem b hb => (hok s hmem b hb).2

/-- Witness for C1: `envOk` with one audio slide and one audio-less
slide; the clock ends at the single decoded duration (2 s). -/
theorem generateVideo_skips_and_total_duration_witness :
    envOk.canvasCtxAvailable = true ∧
    (∀ s ∈ [slideA, slideNoAudio], ∀ b, s.audioBlob = some b →
      (envOk.loadImage s.imageUrl).isSome ∧ (envOk.decodeAudio b).isSome) ∧
    ((generateVideo envOk [slideA, slideNoAudio]).result =
        .resolved { type := mimeDetect envOk } ∧
      (generateVideo envOk [slideA, slideNoAudio]).finalClock =
        (audioDurations envOk [slideA, slideNoAudio]).sum ∧
      playDurations (generateVideo envOk [slideA, slideNoAudio]).trace =
        audioDurations envOk [slideA, slideNoAudio] ∧
      (audioDurations envOk [slideA, slideNoAudio]).length =
        ([slideA, slideNoAudio].filter fun s => s.audioBlob.isSome).length) ∧
    (audioDurations envOk [slideA, slideNoAudio]).sum = 2 :=
  ⟨rfl, by decide,
    generateVideo_skips_and_total_duration envOk [slideA, slideNoAudio]
      rfl rfl rfl rfl (by decide),
    by norm_num [audioDurations, envOk, slideA, slideNoAudio, AudioBuffer.duration,
      List.filterMap_cons]⟩

/-- C5: `generateVideo` never reads a slide's stored `duration` field —
two slide lists equal except possibly in that field produce identical
runs (same trace, same result, same clock). -/
theorem generateVideo_duration_field_irrelevant (env : Env) (s1 s2 : List Slide)
    (h : List.Forall₂ sameExceptDuration s1 s2) :
    generateVideo env s1 = generateVideo env s2 := by
  have hlen : s1.length = s2.length := h.length_eq
  simp only [generateVideo, hlen, processSlides_congr env s2.length s1 s2 0 0 h]

/-- Witness for C5: the same slide with stored durations 2 and 99 gives
bit-identical runs. -/
theorem generateVideo_duration_field_irrelevant_witness :
    List.Forall₂ sameExceptDuration [slideA] [{ slideA with duration := 99 }] ∧
    generateVideo envOk [slideA] = generateVideo envOk [{ slideA with duration := 99 }] :=
  ⟨.cons ⟨rfl, rfl, rfl, rfl, rfl, rfl, rfl, rfl, rfl⟩ .nil,
    generateVideo_duration_field_irrelevant envOk [slideA] [{ slideA with duration := 99 }]
      (.cons ⟨rfl, rfl, rfl, rfl, rfl, rfl, rfl, rfl, rfl⟩ .nil)⟩

/-- C7: every resolved run's trace is some prefix — which contains no
wait, no recorder stop and no blob finalization — followed exactly by
the 500 ms wait, then `recorder.stop()`, then the blob finalization and
the `onstop` cleanup. -/
theorem generateVideo_trailing_buffer (env : Env) (slides : List Slide) (blob : OutBlob)
    (h : (generateVideo env slides).result = .resolved blob) :
    ∃ pre, (generateVideo env slides).trace =
        pre ++ [Event.wait 500, Event.stopRecorder, Event.finalizeBlob (mimeDetect env),
          Event.closeAudioContext, Event.stopTracks] ∧
      (∀ ms, Event.wait ms ∉ pre) ∧ Event.stopRecorder ∉ pre ∧
      (∀ m, Event.finalizeBlob m ∉ pre) := by
  obtain ⟨-, -, -, -, -, -, htrace, -⟩ := generateVideo_resolved_shape env slides blob h
  refine ⟨[Event.createRecorder (mimeDetect env) 8000000, Event.startRecording,
    Event.drawBlackFrame] ++ (processSlides env slides.length 0 0 slides).1,
    ?_, ?_, ?_, ?_⟩
  · rw [htrace]
  · intro ms hmem
    simp only [List.mem_append, List.mem_cons, List.not_mem_nil, or_false] at hmem
    rcases hmem with (h' | h' | h') | h'
    · exact Event.noConfusion h'
    · exact Event.noConfusion h'
    · exact Event.noConfusion h'
    · rcases processSlides_events_shape env slides.length slides 0 0 _ h' with
        ⟨m, hm⟩ | ⟨u, hm⟩ | ⟨st, d, hm⟩ | ⟨p, hm⟩ <;> exact Event.noConfusion hm
  · intro hmem
    simp only [List.mem_append, List.mem_cons, List.not_mem_nil, or_false] at hmem
    rcases hmem with (h' | h' | h') | h'
    · exact Event.noConfusion h'
    · exact Event.noConfusion h'
    · exact Event.noConfusion h'
    · rcases processSlides_events_shape env slides.length slides 0 0 _ h' with
        ⟨m, hm⟩ | ⟨u, hm⟩ | ⟨st, d, hm⟩ | ⟨p, hm⟩ <;> exact Event.noConfusion hm
  · intro m hmem
    simp only [List.mem_append, List.mem_cons, List.not_mem_nil, or_false] at hmem
    rcases hmem with (h' | h' | h') | h'
    · exact Event.noConfusion h'
    · exact Event.noConfusion h'
    · exact Event.noConfusion h'
    · rcases processSlides_events_shape env slides.length slides 0 0 _ h' with
        ⟨m', hm⟩ | ⟨u, hm⟩ | ⟨st, d, hm⟩ | ⟨p, hm⟩ <;> exact Event.noConfusion hm

/-- Witness for C7: the one-slide run under `envOk`. -/
theorem generateVideo_trailing_buffer_witness :
    (generateVideo envOk [slideA]).result = .resolved { type := "video/mp4" } ∧
    (∃ pre, (generateVideo envOk [slideA]).trace =
        pre ++ [Event.wait 500, Event.stopRecorder, Event.finalizeBlob (mimeDetect envOk),
          Event.closeAudioContext, Event.stopTracks] ∧
      (∀ ms, Event.wait ms ∉ pre) ∧ Event.stopRecorder ∉ pre ∧
      (∀ m, Event.finalizeBlob m ∉ pre)) :=
  ⟨by decide,
    generateVideo_trailing_buffer envOk [slideA] { type := "video/mp4" } (by decide)⟩

/-- C8: on a run that resolves, the progress callback fires exactly once
per input slide, in input order, with the message built from the 1-based
index and the full input count — audio-less (later skipped) slides
included, so the number of invocations is the full input length. -/
theorem generateVideo_progress_per_slide (env : Env) (slides : List Slide) (blob : OutBlob)
    (h : (generateVideo env slides).result = .resolved blob) :
    progressMessages (generateVideo env slides).trace =
      (List.range' 1 slides.length).map (fun k => progressMsg k slides.length) ∧
    (progressMessages (generateVideo env slides).trace).length = slides.length := by
  obtain ⟨-, -, -, -, herr, -, htrace, -⟩ := generateVideo_resolved_shape env slides blob h
  obtain ⟨-, -, h3⟩ := processSlides_err_none env slides.length slides 0 0 herr
  have hmain : progressMessages (generateVideo env slides).trace =
      (List.range' 1 slides.length).map fun k => progressMsg k slides.length := by
    rw [htrace]
    simp only [progressMessages, List.filterMap_append, List.filterMap_cons,
      List.filterMap_nil]
    simpa [progressMessages] using h3
  refine ⟨hmain, ?_⟩
  rw [hmain]
  simp

/-- Witness for C8: two slides, the second without audio — two progress
messages `1/2` and `2/2`. -/
theorem generateVideo_progress_per_slide_witness :
    (generateVideo envOk [slideA, slideNoAudio]).result =
      .resolved { type := mimeDetect envOk } ∧
    (progressMessages (generateVideo envOk [slideA, slideNoAudio]).trace =
      (List.range' 1 [slideA, slideNoAudio].length).map
        (fun k => progressMsg k [slideA, slideNoAudio].length) ∧
     (progressMessages (generateVideo envOk [slideA, slideNoAudio]).trace).length =
       [slideA, slideNoAudio].length) ∧
    progressMessages (generateVideo envOk [slideA, slideNoAudio]).trace =
      ["動画生成中... 1/2", "動画生成中... 2/2"] :=
  ⟨by decide,
    generateVideo_progress_per_slide envOk [slideA, slideNoAudio]
      { type := mimeDetect envOk } (by decide),
    by
      rw [(generateVideo_progress_per_slide envOk [slideA, slideNoAudio]
        { type := mimeDetect envOk } (by decide)).1]
      decide⟩

/-- C9: the empty slide deck does not reject: with the capabilities
present the run resolves with a blob, the progress callback never fires,
and the trace is just the recorder setup, the initial black frame, the
500 ms wait and the stop/finalize/cleanup tail. -/
theorem generateVideo_empty_resolves (env : Env)
    (hc1 : env.canvasCtxAvailable = true) (hc2 : env.audioContextAvailable = true)
    (hc3 : env.captureStreamAvailable = true) (hc4 : env.mediaRecorderAvailable = true) :
    (generateVideo env []).result = .resolved { type := mimeDetect env } ∧
    progressMessages (generateVideo env []).trace = [] ∧
    (generateVideo env []).trace =
      [Event.createRecorder (mimeDetect env) 8000000, Event.startRecording,
       Event.drawBlackFrame, Event.wait 500, Event.stopRecorder,
       Event.finalizeBlob (mimeDetect env), Event.closeAudioContext,
       Event.stopTracks] := by
  refine ⟨?_, ?_, ?_⟩ <;>
    simp [generateVideo, hc1, hc2, hc3, hc4, processSlides, progressMessages]

/-- Witness for C9 under `envOk`. -/
theorem generateVideo_empty_resolves_witness :
    envOk.canvasCtxAvailable = true ∧
    ((generateVideo envOk []).result = .resolved { type := mimeDetect envOk } ∧
     progressMessages (generateVideo envOk []).trace = [] ∧
     (generateVideo envOk []).trace =
       [Event.createRecorder (mimeDetect envOk) 8000000, Event.startRecording,
        Event.drawBlackFrame, Event.wait 500, Event.stopRecorder,
        Event.finalizeBlob (mimeDetect envOk), Event.closeAudioContext,
        Event.stopTracks]) :=
  ⟨rfl, generateVideo_empty_resolves envOk rfl rfl rfl rfl⟩

/-- C2 (code bug): on a mid-run image-load failure the promise rejects,
but — the recorder having been started — neither `audioCtx.close()` nor
any track stop appears in the trace: the `onstop` cleanup is the only
cleanup in the source and it never runs on a failure path. -/
theorem generateVideo_cleanup_skipped_on_failure :
    (generateVideo envImgFail [slideA]).result = .rejected "image load failed" ∧
    Event.startRecording ∈ (generateVideo envImgFail [slideA]).trace ∧
    Event.closeAudioContext ∉ (generateVideo envImgFail [slideA]).trace ∧
    Event.stopTracks ∉ (generateVideo envImgFail [slideA]).trace := by
  decide

/-- The 44 header bytes, made explicit (little-endian fields as the
`DataView` writes leave them). -/
theorem createWavHeader_explicit (n sr : Nat) : createWavHeader n sr =
    [82, 73, 70, 70,
     (36 + n) % 256, (36 + n) / 256 % 256, (36 + n) / 65536 % 256,
     (36 + n) / 16777216 % 256,
     87, 65, 86, 69,
     102, 109, 116, 32,
     16, 0, 0, 0,
     1, 0,
     1, 0,
     sr % 256, sr / 256 % 256, sr / 65536 % 256, sr / 16777216 % 256,
     sr * 1 * 16 / 8 % 256, sr * 1 * 16 / 8 / 256 % 256,
     sr * 1 * 16 / 8 / 65536 % 256, sr * 1 * 16 / 8 / 16777216 % 256,
     2, 0,
     16, 0,
     100, 97, 116, 97,
     n % 256, n / 256 % 256, n / 65536 % 256, n / 16777216 % 256] := by
  simp only [createWavHeader, writeString, writeChars, setUint32LE, setUint16LE,
    setUint8, List.replicate, String.toList]
  norm_num
  decide

/-- C10: for every base64 input that decodes to `n` bytes and every
sample rate, `pcmToWav` yields an `audio/wav` blob of `44 + n` bytes
whose RIFF ChunkSize is `36 + n`, whose data Subchunk2Size is `n`, and
whose format fields declare PCM (AudioFormat 1), mono (NumChannels 1),
16-bit samples, `byteRate = sampleRate * 2` and `blockAlign = 2`.
The size bounds keep the 32-bit fields from wrapping, as in any real
invocation. -/
theorem pcmToWav_wav_format (s : String) (bytes : List Nat) (sr : Nat)
    (hdec : atob s = some bytes)
    (hn : 36 + bytes.length < 4294967296)
    (hsr : sr * 2 < 4294967296) :
    ∃ wav, pcmToWav s sr = some wav ∧
      wav.type = "audio/wav" ∧
      wav.data.length = 44 + bytes.length ∧
      readUint32LE wav.data 4 = 36 + bytes.length ∧
      readUint32LE wav.data 40 = bytes.length ∧
      readUint16LE wav.data 20 = 1 ∧
      readUint16LE wav.data 22 = 1 ∧
      readUint16LE wav.data 34 = 16 ∧
      readUint32LE wav.data 24 = sr ∧
      readUint32LE wav.data 28 = sr * 2 ∧
      readUint16LE wav.data 32 = 2 := by
  refine ⟨{ data := createWavHeader bytes.length sr ++ bytes, type := "audio/wav" },
    ?_, rfl, ?_, ?_, ?_, ?_, ?_, ?_, ?_, ?_, ?_⟩
  · simp [pcmToWav, hdec]
  · rw [List.length_append, createWavHeader_explicit]
    simp
  all_goals
    rw [createWavHeader_explicit]
    simp only [readUint32LE, readUint16LE, List.cons_append, List.getD_cons_zero,
      List.getD_cons_succ]
    try omega

/-- Witness for C10 at the concrete input `"AAAA"` (three zero bytes)
and sample rate 24000. -/
theorem pcmToWav_wav_format_witness :
    atob "AAAA" = some [0, 0, 0] ∧
    36 + [0, 0, 0].length < 4294967296 ∧
    24000 * 2 < 4294967296 ∧
    (∃ wav, pcmToWav "AAAA" 24000 = some wav ∧
      wav.type = "audio/wav" ∧
      wav.data.length = 44 + [0, 0, 0].length ∧
      readUint32LE wav.data 4 = 36 + [0, 0, 0].length ∧
      readUint32LE wav.data 40 = [0, 0, 0].length ∧
      readUint16LE wav.data 20 = 1 ∧
      readUint16LE wav.data 22 = 1 ∧
      readUint16LE wav.data 34 = 16 ∧
      readUint32LE wav.data 24 = 24000 ∧
      readUint32LE wav.data 28 = 24000 * 2 ∧
      readUint16LE wav.data 32 = 2) :=
  ⟨by decide, by norm_num, by norm_num,
    pcmToWav_wav_format "AAAA" [0, 0, 0] 24000 (by decide) (by norm_num) (by norm_num)⟩

end Pdf2Video
